import Mathlib

/-!
# Verification of the `fast_forward_dev` core

Shallow embedding of the two source files of the repository:

* `src/pycgmap/modf_boltzmann_inversion.py` — the modified Boltzmann-inversion
  parameter fitter (`modf_blotzmann_inversion`);
* `src/fast_forward/universe_handler.py` — the lattice builder (`dim2lattice`),
  the reciprocal-lattice computation, and the `UniverseHandler` initialisation.

Numbers are modelled as real numbers.  A float operation whose result is
non-finite in the source (division by zero yielding `inf`/`nan`, square root
of a negative number yielding `nan`) is modelled through `Option ℝ`, with
`none` standing for a non-finite float; no exception is raised by those
operations in the source, so none is raised in the model.
-/

/-- A value stored in an interaction's mutable parameter list: a string
(functional-form code or the literal `"not implemented"`), a finite float,
or a non-finite float (`inf`/`nan`). -/
inductive PyVal where
  | str (s : String)
  | num (x : ℝ)
  | nonfinite

/-- Failure of the fitter.  For an interaction kind outside the four
recognized ones, the source raises at the dispatch step (the local
`vectors` is never assigned, so the call `NORMAL_FUNCS[inter_type](*vectors)`
raises before any statistics are computed). -/
inductive FitError where
  | unsupportedKind
  deriving DecidableEq

/-- `np.deg2rad`: degrees to radians. -/
noncomputable def deg2rad (x : ℝ) : ℝ := x * Real.pi / 180

/-- Float division as in numpy: a zero denominator produces a non-finite
float (`inf` or `nan`) and a runtime warning, not an exception; modelled
as `none`. -/
noncomputable def fdiv (a b : ℝ) : Option ℝ := if b = 0 then none else some (a / b)

/-- `np.sqrt`: the square root of a negative number is `nan` (modelled as
`none`), not an exception. -/
noncomputable def fsqrt (a : ℝ) : Option ℝ := if a < 0 then none else some (Real.sqrt a)

/-- `np.average`: arithmetic mean of a series. -/
noncomputable def mean (xs : List ℝ) : ℝ := xs.sum / xs.length

/-- `np.std`: population standard deviation, the square root of the mean
squared deviation from the mean. -/
noncomputable def std (xs : List ℝ) : ℝ :=
  Real.sqrt (mean (xs.map (fun x => (x - mean xs) ^ 2)))

/-- Store an optional float in a parameter list: a finite value as `num`,
a non-finite one as `nonfinite`. -/
def PyVal.ofFloat : Option ℝ → PyVal
  | some x => .num x
  | none => .nonfinite

/-- Embedding of `modf_blotzmann_inversion` from
`src/pycgmap/modf_boltzmann_inversion.py`.

The geometric reduction of the raw displacement vectors to the scalar
observable series (`NORMAL_FUNCS` and the `vectors` selection) is abstracted:
the function takes the observable `time_series` directly, as every property
below is stated over the series.  The dispatch on `inter_type` is preserved:
for a kind outside the four keys of `NORMAL_FUNCS` the source fails at the
dispatch step before touching the series, modelled as `.error .unsupportedKind`.
The `np.savetxt` side effect writes the unmodified series and does not affect
the returned parameters, so it is omitted.

The source then computes `avg`, runs a first `if`/`elif` block (which may
convert the series to radians and assigns `sig`, `k` on its two branches),
and then a second `if`/`else` block which reassigns `k` on *every* path
(the `else` is not conditioned on the first block), and finally writes the
parameter list according to the kind.  The mutation of `time_series` and the
reassignment of `k` are modelled by the successive bindings
`ts1`, `ts2`, `_firstBlockK`, `k`. -/
noncomputable def modf_blotzmann_inversion (inter_type func_type : String)
    (time_series : List ℝ) (temp gas_const : ℝ) : Except FitError (List PyVal) :=
  if inter_type = "bonds" ∨ inter_type = "constraints" ∨ inter_type = "angles" ∨
      inter_type = "dihedrals" then
    let const := temp * gas_const
    let avg := mean time_series
    -- first conditional block: `if func_type == "1" and inter_type == "angles"`
    -- converts the series to radians; its `k` (and the `elif`'s) is
    -- reassigned by the unconditional `if`/`else` block that follows.
    let ts1 := if func_type = "1" ∧ inter_type = "angles" then time_series.map deg2rad
               else time_series
    let _firstBlockK : Option ℝ :=
      if func_type = "1" ∧ inter_type = "angles" then
        fdiv const (std ts1 ^ 2 * Real.sin (deg2rad avg) ^ 2)
      else if func_type = "2" ∧ inter_type = "bonds" then
        fdiv const (std ts1 ^ 2 * Real.sin avg ^ 2)
      else none
    -- second conditional block: `if func_type == "2" and inter_type == "angles"`,
    -- with an `else` that reassigns `sig` and `k` on every other path.
    let ts2 := if func_type = "2" ∧ inter_type = "angles" then ts1.map deg2rad else ts1
    let k : Option ℝ :=
      if func_type = "2" ∧ inter_type = "angles" then
        fdiv const (std ts2 ^ 2 * Real.sin (deg2rad avg) ^ 2)
      else
        fdiv const (std ts2 ^ 2)
    if inter_type = "constraints" then
      .ok [.str func_type, .num avg]
    else if inter_type = "dihedrals" then
      .ok [.str func_type, .str "not implemented"]
    else
      .ok [.str func_type, .num avg, PyVal.ofFloat k]
  else
    .error .unsupportedKind

/-! ## Statistics helper lemmas -/

lemma mean_pair (a b : ℝ) : mean [a, b] = (a + b) / 2 := by
  simp [mean]

lemma std_pair (a b : ℝ) : std [a, b] = |a - b| / 2 := by
  unfold std
  have hmap : ([a, b].map fun x => (x - mean [a, b]) ^ 2)
      = [(a - (a + b) / 2) ^ 2, (b - (a + b) / 2) ^ 2] := by
    simp [mean_pair]
  rw [hmap, mean_pair]
  have hsq : ((a - (a + b) / 2) ^ 2 + (b - (a + b) / 2) ^ 2) / 2 = ((a - b) / 2) ^ 2 := by
    ring
  rw [hsq, Real.sqrt_sq_eq_abs, abs_div]
  norm_num

lemma variance_nonneg (xs : List ℝ) :
    0 ≤ mean (xs.map fun x => (x - mean xs) ^ 2) := by
  unfold mean
  apply div_nonneg
  · exact List.sum_nonneg (by
      intro y hy
      simp only [List.mem_map] at hy
      obtain ⟨x, _, rfl⟩ := hy
      positivity)
  · positivity

lemma mean_const (xs : List ℝ) (c : ℝ) (hne : xs ≠ []) (h : ∀ x ∈ xs, x = c) :
    mean xs = c := by
  have hsum : xs.sum = xs.length • c := List.sum_eq_card_nsmul xs c h
  have hlen : (xs.length : ℝ) ≠ 0 := by
    have := List.length_pos.mpr hne
    positivity
  unfold mean
  rw [hsum, nsmul_eq_mul]
  field_simp

lemma all_eq_zero_of_sum_eq_zero (l : List ℝ) (hpos : ∀ x ∈ l, 0 ≤ x)
    (hsum : l.sum = 0) : ∀ x ∈ l, x = 0 := by
  induction l with
  | nil => simp
  | cons a t ih =>
    simp only [List.sum_cons] at hsum
    have ha : 0 ≤ a := hpos a (by simp)
    have ht : 0 ≤ t.sum := List.sum_nonneg (fun x hx => hpos x (by simp [hx]))
    have ha0 : a = 0 := by linarith
    intro x hx
    rcases List.mem_cons.mp hx with rfl | hx2
    · exact ha0
    · exact ih (fun y hy => hpos y (by simp [hy])) (by linarith) x hx2

lemma eq_mean_of_std_eq_zero (xs : List ℝ) (h : std xs = 0) :
    ∀ x ∈ xs, x = mean xs := by
  intro x hx
  have hvar : mean (xs.map fun y => (y - mean xs) ^ 2) = 0 :=
    (Real.sqrt_eq_zero (variance_nonneg xs)).mp h
  have hlen : (xs.length : ℝ) ≠ 0 := by
    have := List.length_pos.mpr (List.ne_nil_of_mem hx)
    positivity
  have hsum : (xs.map fun y => (y - mean xs) ^ 2).sum = 0 := by
    have hvar2 : (xs.map fun y => (y - mean xs) ^ 2).sum
        / ((xs.map fun y => (y - mean xs) ^ 2).length : ℝ) = 0 := hvar
    rw [List.length_map] at hvar2
    rcases div_eq_zero_iff.mp hvar2 with h0 | h0
    · exact h0
    · exact absurd h0 hlen
  have hzero := all_eq_zero_of_sum_eq_zero _ (by
      intro y hy
      simp only [List.mem_map] at hy
      obtain ⟨z, _, rfl⟩ := hy
      positivity) hsum
  have hx0 : (x - mean xs) ^ 2 = 0 := hzero _ (List.mem_map_of_mem _ hx)
  have := pow_eq_zero_iff (n := 2) (by norm_num) |>.mp hx0
  linarith [sub_eq_zero.mp this]

lemma std_const (xs : List ℝ) (c : ℝ) (h : ∀ x ∈ xs, x = c) : std xs = 0 := by
  have hsum : (xs.map fun x => (x - mean xs) ^ 2).sum = 0 := by
    apply List.sum_eq_zero
    intro y hy
    simp only [List.mem_map] at hy
    obtain ⟨x, hx, rfl⟩ := hy
    rw [h x hx, mean_const xs c (List.ne_nil_of_mem hx) h]
    ring
  have hm : mean (xs.map fun x => (x - mean xs) ^ 2) = 0 := by
    have heq : mean (xs.map fun x => (x - mean xs) ^ 2)
        = (xs.map fun x => (x - mean xs) ^ 2).sum
          / ((xs.map fun x => (x - mean xs) ^ 2).length : ℝ) := rfl
    rw [heq, hsum, zero_div]
  unfold std
  rw [hm, Real.sqrt_zero]

lemma std_map_of_std_eq_zero (xs : List ℝ) (f : ℝ → ℝ) (h : std xs = 0) :
    std (xs.map f) = 0 := by
  rcases xs.eq_nil_or_concat with rfl | _
  · exact std_const [] 0 (by simp)
  · apply std_const (xs.map f) (f (mean xs))
    intro y hy
    simp only [List.mem_map] at hy
    obtain ⟨x, hx, rfl⟩ := hy
    rw [eq_mean_of_std_eq_zero xs h x hx]

/-! ## Evaluation lemmas for the fitter, one per branch of the source -/

lemma fit_constraints_eq (form : String) (ts : List ℝ) (t g : ℝ) :
    modf_blotzmann_inversion "constraints" form ts t g
      = .ok [.str form, .num (mean ts)] := by
  simp [modf_blotzmann_inversion]

lemma fit_dihedrals_eq (form : String) (ts : List ℝ) (t g : ℝ) :
    modf_blotzmann_inversion "dihedrals" form ts t g
      = .ok [.str form, .str "not implemented"] := by
  simp [modf_blotzmann_inversion]

lemma fit_angles_form1_eq (ts : List ℝ) (t g : ℝ) :
    modf_blotzmann_inversion "angles" "1" ts t g
      = .ok [.str "1", .num (mean ts),
             PyVal.ofFloat (fdiv (t * g) (std (ts.map deg2rad) ^ 2))] := by
  simp [modf_blotzmann_inversion]

lemma fit_bonds_eq (form : String) (ts : List ℝ) (t g : ℝ) :
    modf_blotzmann_inversion "bonds" form ts t g
      = .ok [.str form, .num (mean ts), PyVal.ofFloat (fdiv (t * g) (std ts ^ 2))] := by
  simp [modf_blotzmann_inversion]

lemma fit_angles_form2_eq (ts : List ℝ) (t g : ℝ) :
    modf_blotzmann_inversion "angles" "2" ts t g
      = .ok [.str "2", .num (mean ts),
             PyVal.ofFloat (fdiv (t * g)
               (std (ts.map deg2rad) ^ 2 * Real.sin (deg2rad (mean ts)) ^ 2))] := by
  simp [modf_blotzmann_inversion]

lemma fit_angles_other_eq (form : String) (ts : List ℝ) (t g : ℝ)
    (h1 : form ≠ "1") (h2 : form ≠ "2") :
    modf_blotzmann_inversion "angles" form ts t g
      = .ok [.str form, .num (mean ts), PyVal.ofFloat (fdiv (t * g) (std ts ^ 2))] := by
  simp [modf_blotzmann_inversion, h1, h2]

lemma fit_unsupported_eq (kind form : String) (ts : List ℝ) (t g : ℝ)
    (h : ¬(kind = "bonds" ∨ kind = "constraints" ∨ kind = "angles" ∨ kind = "dihedrals")) :
    modf_blotzmann_inversion kind form ts t g = .error .unsupportedKind := by
  simp [modf_blotzmann_inversion, h]

/-! ## Concrete series used as inputs -/

lemma mean_5070 : mean [(50 : ℝ), 70] = 60 := by
  rw [mean_pair]; norm_num

lemma std_map_5070 : std (List.map deg2rad [(50 : ℝ), 70]) = Real.pi / 18 := by
  have hmap : List.map deg2rad [(50 : ℝ), 70] = [deg2rad 50, deg2rad 70] := by simp
  rw [hmap, std_pair]
  have hsub : deg2rad 50 - deg2rad 70 = -(Real.pi / 9) := by
    unfold deg2rad; ring
  rw [hsub, abs_neg, abs_of_nonneg (by positivity)]
  ring

lemma deg2rad_60 : deg2rad 60 = Real.pi / 3 := by
  unfold deg2rad; ring

/-! ## Claim C1 -/

/-- C1 counterexample: for the series `[50, 70]` (degrees) with kind `angles`
and form `"1"`, the force constant actually written as the third parameter is
`const / sig_rad²`, which differs from the value `const / (sig_rad² · sin²(radians(avg)))`
asserted by the claim: the sine-corrected constant computed in the first
conditional block is overwritten by the `else` branch of the second
conditional block. -/
theorem angles_form1_sine_correction_overwritten :
    modf_blotzmann_inversion "angles" "1" [(50 : ℝ), 70] 298.15 8.314
      = .ok [.str "1", .num (mean [(50 : ℝ), 70]),
             .num (298.15 * 8.314 / std (List.map deg2rad [(50 : ℝ), 70]) ^ 2)]
    ∧ 298.15 * 8.314 / std (List.map deg2rad [(50 : ℝ), 70]) ^ 2
      ≠ 298.15 * 8.314
        / (std (List.map deg2rad [(50 : ℝ), 70]) ^ 2
           * Real.sin (deg2rad (mean [(50 : ℝ), 70])) ^ 2) := by
  constructor
  · rw [fit_angles_form1_eq]
    have hne : std (List.map deg2rad [(50 : ℝ), 70]) ^ 2 ≠ 0 := by
      rw [std_map_5070]; positivity
    unfold fdiv
    rw [if_neg hne]
    rfl
  · rw [std_map_5070, mean_5070, deg2rad_60, Real.sin_pi_div_three]
    have hsq : (Real.sqrt 3 / 2) ^ 2 = 3 / 4 := by
      rw [div_pow, Real.sq_sqrt (by norm_num : (0:ℝ) ≤ 3)]
      norm_num
    rw [hsq]
    have hs : (0:ℝ) < (Real.pi / 18) ^ 2 := by positivity
    intro heq
    rw [div_eq_div_iff (by positivity) (by positivity)] at heq
    nlinarith [hs]

/-- C1 (amended): for kind `angles`, form `"1"`, and any series whose
radian-converted standard deviation is nonzero, the force constant written as
the third parameter equals `const / sig_rad²` (no `sin²` factor): the value
computed in the first conditional block is overwritten by the `else` of the
second conditional block, which recomputes `k = const / std(series)²` on the
series that was converted to radians in place by the first block. -/
theorem angles_form1_force_constant (ts : List ℝ) (temp gas_const : ℝ)
    (h : std (ts.map deg2rad) ≠ 0) :
    modf_blotzmann_inversion "angles" "1" ts temp gas_const
      = .ok [.str "1", .num (mean ts),
             .num (temp * gas_const / std (ts.map deg2rad) ^ 2)] := by
  rw [fit_angles_form1_eq]
  unfold fdiv
  rw [if_neg (pow_ne_zero 2 h)]
  rfl

/-- C1 witness: the amended claim evaluated on the series `[50, 70]` with the
default temperature and gas constant; the radian-converted standard deviation
is `π/18` and the mean is `60`. -/
theorem angles_form1_force_constant_witness :
    std (List.map deg2rad [(50 : ℝ), 70]) ≠ 0 ∧
    modf_blotzmann_inversion "angles" "1" [(50 : ℝ), 70] 298.15 8.314
      = .ok [.str "1", .num 60, .num (298.15 * 8.314 / (Real.pi / 18) ^ 2)] := by
  have hne : std (List.map deg2rad [(50 : ℝ), 70]) ≠ 0 := by
    rw [std_map_5070]; positivity
  refine ⟨hne, ?_⟩
  rw [angles_form1_force_constant _ _ _ hne, mean_5070, std_map_5070]

/-! ## Claim C2 -/

lemma mean_c2 : mean [Real.pi / 6 - 3 / 10, Real.pi / 6 + 3 / 10] = Real.pi / 6 := by
  rw [mean_pair]; ring

lemma std_c2 : std [Real.pi / 6 - 3 / 10, Real.pi / 6 + 3 / 10] = 3 / 10 := by
  rw [std_pair]
  have hsub : Real.pi / 6 - 3 / 10 - (Real.pi / 6 + 3 / 10) = -(3 / 5) := by ring
  rw [hsub, abs_neg, abs_of_nonneg (by norm_num)]
  norm_num

/-- C2 counterexample: for the series `[π/6 − 3/10, π/6 + 3/10]` with kind
`bonds` and form `"2"`, the force constant actually written is `const / sig²`,
which differs from the claimed value `const / (sig² · sin²(avg))`: the value
computed in the first conditional block is overwritten by the `else` branch of
the second conditional block. -/
theorem bonds_form2_sine_correction_overwritten :
    modf_blotzmann_inversion "bonds" "2" [Real.pi / 6 - 3 / 10, Real.pi / 6 + 3 / 10]
        298.15 8.314
      = .ok [.str "2", .num (mean [Real.pi / 6 - 3 / 10, Real.pi / 6 + 3 / 10]),
             .num (298.15 * 8.314
               / std [Real.pi / 6 - 3 / 10, Real.pi / 6 + 3 / 10] ^ 2)]
    ∧ 298.15 * 8.314 / std [Real.pi / 6 - 3 / 10, Real.pi / 6 + 3 / 10] ^ 2
      ≠ 298.15 * 8.314
        / (std [Real.pi / 6 - 3 / 10, Real.pi / 6 + 3 / 10] ^ 2
           * Real.sin (mean [Real.pi / 6 - 3 / 10, Real.pi / 6 + 3 / 10]) ^ 2) := by
  constructor
  · rw [fit_bonds_eq]
    have hne : std [Real.pi / 6 - 3 / 10, Real.pi / 6 + 3 / 10] ^ 2 ≠ 0 := by
      rw [std_c2]; norm_num
    unfold fdiv
    rw [if_neg hne]
    rfl
  · rw [std_c2, mean_c2, Real.sin_pi_div_six]
    norm_num

/-- C2 (amended): for kind `bonds`, form `"2"`, and any series with nonzero
standard deviation, the force constant written into the parameter list equals
`const / sig²` with `sig` the standard deviation of the untransformed series:
the value `const / (sig² · sin²(avg))` computed in the first conditional block
IS overwritten by the `else` branch of the second conditional block. -/
theorem bonds_form2_force_constant (ts : List ℝ) (temp gas_const : ℝ)
    (h : std ts ≠ 0) :
    modf_blotzmann_inversion "bonds" "2" ts temp gas_const
      = .ok [.str "2", .num (mean ts), .num (temp * gas_const / std ts ^ 2)] := by
  rw [fit_bonds_eq]
  unfold fdiv
  rw [if_neg (pow_ne_zero 2 h)]
  rfl

/-- C2 witness: the amended claim evaluated on the series `[1, 3]` with the
default temperature and gas constant; the standard deviation is `1` and the
mean is `2`. -/
theorem bonds_form2_force_constant_witness :
    std [(1 : ℝ), 3] ≠ 0 ∧
    modf_blotzmann_inversion "bonds" "2" [(1 : ℝ), 3] 298.15 8.314
      = .ok [.str "2", .num 2, .num (298.15 * 8.314 / 1 ^ 2)] := by
  have hstd : std [(1 : ℝ), 3] = 1 := by
    rw [std_pair]
    norm_num
  have hne : std [(1 : ℝ), 3] ≠ 0 := by rw [hstd]; norm_num
  refine ⟨hne, ?_⟩
  rw [bonds_form2_force_constant _ _ _ hne, mean_pair, hstd]
  norm_num

/-! ## Claim C3 -/

/-- C3 counterexample: for the constant series `[1, 1, 1]` with kind `bonds`
and form `"1"`, the fitter does not raise any error: it returns successfully
and writes a non-finite (infinite) force constant as the third parameter,
the result of the silent float division `const / 0`. -/
theorem constant_series_raises_no_error :
    modf_blotzmann_inversion "bonds" "1" [(1 : ℝ), 1, 1] 298.15 8.314
      = .ok [.str "1", .num 1, .nonfinite] := by
  have hall : ∀ x ∈ [(1 : ℝ), 1, 1], x = 1 := by
    intro x hx
    simp at hx
    exact hx
  have h0 : std [(1 : ℝ), 1, 1] = 0 := std_const _ 1 hall
  have hm : mean [(1 : ℝ), 1, 1] = 1 := mean_const _ 1 (by simp) hall
  rw [fit_bonds_eq, hm, h0]
  norm_num [fdiv, PyVal.ofFloat]

/-- C3 (amended): for every constant observable series (standard deviation
zero) with kind `bonds` or `angles` and any functional-form code, the fitter
raises no error: it returns successfully with a non-finite force constant
(the float division by the zero variance) written as the third element of the
parameter list. -/
theorem constant_series_yields_nonfinite_k (inter_type func_type : String)
    (ts : List ℝ) (temp gas_const : ℝ)
    (hkind : inter_type = "bonds" ∨ inter_type = "angles")
    (_hne : ts ≠ []) (h0 : std ts = 0) :
    modf_blotzmann_inversion inter_type func_type ts temp gas_const
      = .ok [.str func_type, .num (mean ts), .nonfinite] := by
  have hmap : std (ts.map deg2rad) = 0 := std_map_of_std_eq_zero ts deg2rad h0
  rcases hkind with rfl | rfl
  · rw [fit_bonds_eq, h0]
    norm_num [fdiv, PyVal.ofFloat]
  · by_cases h1 : func_type = "1"
    · subst h1
      rw [fit_angles_form1_eq, hmap]
      norm_num [fdiv, PyVal.ofFloat]
    · by_cases h2 : func_type = "2"
      · subst h2
        rw [fit_angles_form2_eq, hmap]
        norm_num [fdiv, PyVal.ofFloat]
      · rw [fit_angles_other_eq _ _ _ _ h1 h2, h0]
        norm_num [fdiv, PyVal.ofFloat]

/-- C3 witness: the amended claim evaluated on the constant series `[2, 2]`
with kind `angles` and form `"2"`. -/
theorem constant_series_yields_nonfinite_k_witness :
    (("angles" : String) = "bonds" ∨ ("angles" : String) = "angles")
    ∧ [(2 : ℝ), 2] ≠ [] ∧ std [(2 : ℝ), 2] = 0
    ∧ modf_blotzmann_inversion "angles" "2" [(2 : ℝ), 2] 298.15 8.314
        = .ok [.str "2", .num 2, .nonfinite] := by
  have h0 : std [(2 : ℝ), 2] = 0 := by
    rw [std_pair]
    norm_num
  refine ⟨Or.inr rfl, by simp, h0, ?_⟩
  rw [constant_series_yields_nonfinite_k "angles" "2" [(2 : ℝ), 2] 298.15 8.314
      (Or.inr rfl) (by simp) h0, mean_pair]
  norm_num

/-! ## Claims C5, C6, C7 -/

/-- C5: for every interaction kind outside the four recognized values
(`bonds`, `angles`, `constraints`, `dihedrals`), the fitter fails at the
dispatch step with the unsupported-kind error, for any series, any
functional-form code, and any temperature/gas-constant configuration. -/
theorem unsupported_kind_fails_at_dispatch (kind form : String) (ts : List ℝ)
    (temp gas_const : ℝ)
    (h : ¬(kind = "bonds" ∨ kind = "constraints" ∨ kind = "angles" ∨ kind = "dihedrals")) :
    modf_blotzmann_inversion kind form ts temp gas_const = .error .unsupportedKind :=
  fit_unsupported_eq kind form ts temp gas_const h

/-- C5 witness: the kind `"impropers"` fails at the dispatch step. -/
theorem unsupported_kind_fails_at_dispatch_witness :
    ¬(("impropers" : String) = "bonds" ∨ ("impropers" : String) = "constraints"
      ∨ ("impropers" : String) = "angles" ∨ ("impropers" : String) = "dihedrals")
    ∧ modf_blotzmann_inversion "impropers" "1" [(1 : ℝ), 2] 298.15 8.314
        = .error .unsupportedKind := by
  have h : ¬(("impropers" : String) = "bonds" ∨ ("impropers" : String) = "constraints"
      ∨ ("impropers" : String) = "angles" ∨ ("impropers" : String) = "dihedrals") := by
    simp
  exact ⟨h, unsupported_kind_fails_at_dispatch "impropers" "1" [(1 : ℝ), 2] 298.15 8.314 h⟩

/-- C6: for every nonempty observable series (including constant,
zero-variance ones) and any functional-form code, kind `constraints` succeeds
and writes exactly `[form, avg]` into the parameter list; no force constant is
written and no error is raised. -/
theorem constraints_params (form : String) (ts : List ℝ) (temp gas_const : ℝ)
    (_hne : ts ≠ []) :
    modf_blotzmann_inversion "constraints" form ts temp gas_const
      = .ok [.str form, .num (mean ts)] :=
  fit_constraints_eq form ts temp gas_const

/-- C6 witness: for form `"1"` and the constant series `[1, 1, 1]` the output
parameters are exactly `["1", 1.0]`. -/
theorem constraints_params_witness :
    [(1 : ℝ), 1, 1] ≠ [] ∧
    modf_blotzmann_inversion "constraints" "1" [(1 : ℝ), 1, 1] 298.15 8.314
      = .ok [.str "1", .num 1] := by
  have hm : mean [(1 : ℝ), 1, 1] = 1 := by
    apply mean_const _ 1 (by simp)
    intro x hx
    simp at hx
    exact hx
  refine ⟨by simp, ?_⟩
  rw [constraints_params "1" [(1 : ℝ), 1, 1] 298.15 8.314 (by simp), hm]

/-- C7: for every nonempty observable series and any functional-form code,
kind `dihedrals` writes exactly `[form, "not implemented"]` into the parameter
list, independent of the series content. -/
theorem dihedrals_params (form : String) (ts : List ℝ) (temp gas_const : ℝ)
    (_hne : ts ≠ []) :
    modf_blotzmann_inversion "dihedrals" form ts temp gas_const
      = .ok [.str form, .str "not implemented"] :=
  fit_dihedrals_eq form ts temp gas_const

/-- C7 witness: kind `dihedrals` with form `"1"` on the series `[10, 20, 30]`. -/
theorem dihedrals_params_witness :
    [(10 : ℝ), 20, 30] ≠ [] ∧
    modf_blotzmann_inversion "dihedrals" "1" [(10 : ℝ), 20, 30] 298.15 8.314
      = .ok [.str "1", .str "not implemented"] :=
  ⟨by simp, dihedrals_params "1" [(10 : ℝ), 20, 30] 298.15 8.314 (by simp)⟩

/-! ## The lattice builder `dim2lattice` of `src/fast_forward/universe_handler.py` -/

/-- Embedding of `dim2lattice`: converts box lengths `x, y, z` and angles
`alpha, beta, gamma` (degrees) to the 3×3 lattice matrix

```
[[x, 0, 0], [y·cosγ, y·sinγ, 0], [zx, zy, zz]]
```

with `zx = z·cosβ`, `zy = z·(cosα − cosβ·cosγ)/sinγ` and
`zz = sqrt(z² − zx² − zy²)`.  The source performs no domain check: the
division by `sinγ` and the square root go through `fdiv`/`fsqrt`, so an
entry is `none` exactly where the float result is non-finite. -/
noncomputable def dim2lattice (x y z alpha beta gamma : ℝ) :
    Matrix (Fin 3) (Fin 3) (Option ℝ) :=
  let cosa := Real.cos (Real.pi * alpha / 180)
  let cosb := Real.cos (Real.pi * beta / 180)
  let cosg := Real.cos (Real.pi * gamma / 180)
  let sing := Real.sin (Real.pi * gamma / 180)
  let zx := z * cosb
  let zy := fdiv (z * (cosa - cosb * cosg)) sing
  let zz := zy.bind (fun v => fsqrt (z ^ 2 - zx ^ 2 - v ^ 2))
  Matrix.of ![![some x, some 0, some 0],
              ![some (y * cosg), some (y * sing), some 0],
              ![some zx, zy, zz]]

/-- The same lattice matrix over ℝ, for parameter combinations where every
entry is finite (`sinγ ≠ 0` and nonnegative radicand): the real-division and
real-square-root counterpart of `dim2lattice`. -/
noncomputable def dim2latticeReal (x y z alpha beta gamma : ℝ) :
    Matrix (Fin 3) (Fin 3) ℝ :=
  let cosa := Real.cos (Real.pi * alpha / 180)
  let cosb := Real.cos (Real.pi * beta / 180)
  let cosg := Real.cos (Real.pi * gamma / 180)
  let sing := Real.sin (Real.pi * gamma / 180)
  let zx := z * cosb
  let zy := z * (cosa - cosb * cosg) / sing
  let zz := Real.sqrt (z ^ 2 - zx ^ 2 - zy ^ 2)
  Matrix.of ![![x, 0, 0], ![y * cosg, y * sing, 0], ![zx, zy, zz]]

lemma dim2latticeReal_det (x y z alpha beta gamma : ℝ) :
    (dim2latticeReal x y z alpha beta gamma).det
      = x * (y * Real.sin (Real.pi * gamma / 180))
        * Real.sqrt (z ^ 2 - (z * Real.cos (Real.pi * beta / 180)) ^ 2
            - (z * (Real.cos (Real.pi * alpha / 180)
                - Real.cos (Real.pi * beta / 180) * Real.cos (Real.pi * gamma / 180))
              / Real.sin (Real.pi * gamma / 180)) ^ 2) := by
  unfold dim2latticeReal
  simp [Matrix.det_fin_three]

/-! ## Claim C9 -/

/-- C9: for any box lengths with `0 ≤ z` and angles `(90°, 90°, 90°)`, the
lattice builder returns the diagonal matrix `diag(x, y, z)` (every entry
finite). -/
theorem dim2lattice_orthorhombic_diag (x y z : ℝ) (hz : 0 ≤ z) :
    dim2lattice x y z 90 90 90
      = Matrix.of ![![some x, some 0, some 0],
                    ![some 0, some y, some 0],
                    ![some 0, some 0, some z]] := by
  have h90 : Real.pi * 90 / 180 = Real.pi / 2 := by ring
  unfold dim2lattice
  rw [h90, Real.cos_pi_div_two, Real.sin_pi_div_two]
  ext i j
  fin_cases i <;> fin_cases j <;>
    simp [fdiv, fsqrt, Real.sqrt_sq hz, not_lt.mpr (sq_nonneg z)]

/-- C9 witness: the box `(1, 2, 3)` with right angles yields `diag(1, 2, 3)`. -/
theorem dim2lattice_orthorhombic_diag_witness :
    (0 : ℝ) ≤ 3 ∧
    dim2lattice 1 2 3 90 90 90
      = Matrix.of ![![some 1, some 0, some 0],
                    ![some 0, some 2, some 0],
                    ![some 0, some 0, some 3]] :=
  ⟨by norm_num, dim2lattice_orthorhombic_diag 1 2 3 (by norm_num)⟩

/-! ## Claim C4 -/

/-- C4 counterexample: for the box `(1, 1, 1)` with angles `(90°, 90°, 0°)`
(`sinγ = 0`), the builder does not fail: it returns a matrix whose `zy` and
`zz` entries are non-finite floats (the silent division by zero and the
square root built from it). -/
theorem dim2lattice_silent_nan :
    dim2lattice 1 1 1 90 90 0 2 1 = none ∧ dim2lattice 1 1 1 90 90 0 2 2 = none := by
  have h0 : Real.pi * 0 / 180 = 0 := by ring
  unfold dim2lattice
  rw [h0, Real.sin_zero]
  constructor <;> simp [fdiv]

/-- C4 (amended): the builder performs no domain check and never raises.
When `sinγ = 0` it silently returns a matrix whose `zy` and `zz` entries are
non-finite; when `sinγ ≠ 0` but the radicand `z² − zx² − zy²` is negative
(impossible angle combination), the `zz` entry is non-finite (the silent
`nan` of `np.sqrt` on a negative argument); for every physically valid
triclinic box (`x, y > 0`, `sinγ > 0`, positive radicand for `zz`) every
entry is finite and the resulting real matrix is non-degenerate (nonzero
determinant). -/
theorem dim2lattice_domain_behavior (x y z alpha beta gamma : ℝ) :
    (Real.sin (Real.pi * gamma / 180) = 0 →
      dim2lattice x y z alpha beta gamma 2 1 = none
      ∧ dim2lattice x y z alpha beta gamma 2 2 = none)
    ∧ (Real.sin (Real.pi * gamma / 180) ≠ 0 →
       z ^ 2 - (z * Real.cos (Real.pi * beta / 180)) ^ 2
           - (z * (Real.cos (Real.pi * alpha / 180)
               - Real.cos (Real.pi * beta / 180) * Real.cos (Real.pi * gamma / 180))
             / Real.sin (Real.pi * gamma / 180)) ^ 2 < 0 →
       dim2lattice x y z alpha beta gamma 2 2 = none)
    ∧ (0 < x → 0 < y → 0 < Real.sin (Real.pi * gamma / 180) →
       0 < z ^ 2 - (z * Real.cos (Real.pi * beta / 180)) ^ 2
           - (z * (Real.cos (Real.pi * alpha / 180)
               - Real.cos (Real.pi * beta / 180) * Real.cos (Real.pi * gamma / 180))
             / Real.sin (Real.pi * gamma / 180)) ^ 2 →
       dim2lattice x y z alpha beta gamma
         = Matrix.of (fun i j => some (dim2latticeReal x y z alpha beta gamma i j))
       ∧ (dim2latticeReal x y z alpha beta gamma).det ≠ 0) := by
  refine ⟨?_, ?_, ?_⟩
  · intro hsin
    unfold dim2lattice
    rw [hsin]
    constructor <;> simp [fdiv]
  · intro hsin hneg
    have hzy : fdiv (z * (Real.cos (Real.pi * alpha / 180)
          - Real.cos (Real.pi * beta / 180) * Real.cos (Real.pi * gamma / 180)))
          (Real.sin (Real.pi * gamma / 180))
        = some (z * (Real.cos (Real.pi * alpha / 180)
          - Real.cos (Real.pi * beta / 180) * Real.cos (Real.pi * gamma / 180))
          / Real.sin (Real.pi * gamma / 180)) := by
      unfold fdiv
      rw [if_neg hsin]
    unfold dim2lattice
    simp only [Matrix.of_apply, Matrix.cons_val', Matrix.cons_val_zero, Matrix.empty_val',
      Matrix.cons_val_fin_one, Matrix.cons_val_one, Matrix.head_cons, Matrix.head_fin_const,
      Matrix.cons_val_two, Matrix.tail_cons, hzy, Option.some_bind]
    unfold fsqrt
    rw [if_pos hneg]
  · intro hx hy hs hrad
    have hzy : fdiv (z * (Real.cos (Real.pi * alpha / 180)
          - Real.cos (Real.pi * beta / 180) * Real.cos (Real.pi * gamma / 180)))
          (Real.sin (Real.pi * gamma / 180))
        = some (z * (Real.cos (Real.pi * alpha / 180)
          - Real.cos (Real.pi * beta / 180) * Real.cos (Real.pi * gamma / 180))
          / Real.sin (Real.pi * gamma / 180)) := by
      unfold fdiv
      rw [if_neg (ne_of_gt hs)]
    have hzz : fsqrt (z ^ 2 - (z * Real.cos (Real.pi * beta / 180)) ^ 2
          - (z * (Real.cos (Real.pi * alpha / 180)
              - Real.cos (Real.pi * beta / 180) * Real.cos (Real.pi * gamma / 180))
            / Real.sin (Real.pi * gamma / 180)) ^ 2)
        = some (Real.sqrt (z ^ 2 - (z * Real.cos (Real.pi * beta / 180)) ^ 2
          - (z * (Real.cos (Real.pi * alpha / 180)
              - Real.cos (Real.pi * beta / 180) * Real.cos (Real.pi * gamma / 180))
            / Real.sin (Real.pi * gamma / 180)) ^ 2)) := by
      unfold fsqrt
      rw [if_neg (not_lt.mpr (le_of_lt hrad))]
    constructor
    · unfold dim2lattice dim2latticeReal
      ext i j
      fin_cases i <;> fin_cases j <;> simp [hzy, hzz]
    · rw [dim2latticeReal_det]
      have hsqrt := Real.sqrt_pos.mpr hrad
      exact ne_of_gt (mul_pos (mul_pos hx (mul_pos hy hs)) hsqrt)

/-- C4 witness: the degenerate half at the box `(1, 1, 1, 90°, 90°, 0°)`;
the negative-radicand half at the impossible angle combination
`(1, 1, 1, 0°, 0°, 90°)`, where `sinγ = 1` but the radicand is
`1 − 1 − 1 = −1 < 0`; and the valid half at the box
`(1, 1, 1, 90°, 90°, 90°)`, whose lattice has determinant
`1·(1·sin 90°)·sqrt(1) ≠ 0`. -/
theorem dim2lattice_domain_behavior_witness :
    (Real.sin (Real.pi * 0 / 180) = 0
     ∧ dim2lattice 1 1 1 90 90 0 2 2 = none)
    ∧ (Real.sin (Real.pi * 90 / 180) ≠ 0
       ∧ (1 : ℝ) ^ 2 - ((1 : ℝ) * Real.cos (Real.pi * 0 / 180)) ^ 2
           - ((1 : ℝ) * (Real.cos (Real.pi * 0 / 180)
               - Real.cos (Real.pi * 0 / 180) * Real.cos (Real.pi * 90 / 180))
             / Real.sin (Real.pi * 90 / 180)) ^ 2 < 0
       ∧ dim2lattice 1 1 1 0 0 90 2 2 = none)
    ∧ ((0 : ℝ) < 1 ∧ 0 < Real.sin (Real.pi * 90 / 180)
       ∧ 0 < (1 : ℝ) ^ 2 - ((1 : ℝ) * Real.cos (Real.pi * 90 / 180)) ^ 2
           - ((1 : ℝ) * (Real.cos (Real.pi * 90 / 180)
               - Real.cos (Real.pi * 90 / 180) * Real.cos (Real.pi * 90 / 180))
             / Real.sin (Real.pi * 90 / 180)) ^ 2
       ∧ (dim2latticeReal 1 1 1 90 90 90).det ≠ 0) := by
  have h90 : Real.pi * 90 / 180 = Real.pi / 2 := by ring
  have h0 : Real.pi * 0 / 180 = 0 := by ring
  have hsin0 : Real.sin (Real.pi * 0 / 180) = 0 := by
    rw [h0, Real.sin_zero]
  have hs : (0 : ℝ) < Real.sin (Real.pi * 90 / 180) := by
    rw [h90, Real.sin_pi_div_two]; norm_num
  have hneg : (1 : ℝ) ^ 2 - ((1 : ℝ) * Real.cos (Real.pi * 0 / 180)) ^ 2
      - ((1 : ℝ) * (Real.cos (Real.pi * 0 / 180)
          - Real.cos (Real.pi * 0 / 180) * Real.cos (Real.pi * 90 / 180))
        / Real.sin (Real.pi * 90 / 180)) ^ 2 < 0 := by
    rw [h90, h0, Real.cos_zero, Real.cos_pi_div_two, Real.sin_pi_div_two]
    norm_num
  have hrad : (0 : ℝ) < (1 : ℝ) ^ 2 - ((1 : ℝ) * Real.cos (Real.pi * 90 / 180)) ^ 2
      - ((1 : ℝ) * (Real.cos (Real.pi * 90 / 180)
          - Real.cos (Real.pi * 90 / 180) * Real.cos (Real.pi * 90 / 180))
        / Real.sin (Real.pi * 90 / 180)) ^ 2 := by
    rw [h90, Real.cos_pi_div_two, Real.sin_pi_div_two]
    norm_num
  refine ⟨⟨hsin0, ((dim2lattice_domain_behavior 1 1 1 90 90 0).1 hsin0).2⟩,
          ⟨ne_of_gt hs, hneg,
           (dim2lattice_domain_behavior 1 1 1 0 0 90).2.1 (ne_of_gt hs) hneg⟩,
          (by norm_num), hs, hrad,
          ((dim2lattice_domain_behavior 1 1 1 90 90 90).2.2
            (by norm_num) (by norm_num) hs hrad).2⟩

/-! ## Claim C8: the reciprocal lattice of `UniverseHandler.__init__` -/

/-- Failure of the reciprocal-lattice computation: `np.linalg.inv` raises
`LinAlgError` ("Singular matrix") when the lattice is not invertible. -/
inductive LatticeError where
  | singularLattice
  deriving DecidableEq

open Classical in
/-- Embedding of `self.ipbc = 2 * np.pi * np.linalg.inv(self.pbc)` from
`UniverseHandler.__init__`, per frame: `2π` times the matrix inverse of one
frame's lattice; a singular lattice raises, modelled as
`.error .singularLattice`. -/
noncomputable def reciprocalOf (L : Matrix (Fin 3) (Fin 3) ℝ) :
    Except LatticeError (Matrix (Fin 3) (Fin 3) ℝ) :=
  if IsUnit L.det then .ok ((2 * Real.pi) • L⁻¹) else .error .singularLattice

/-- C8: for every invertible lattice matrix the reciprocal lattice is
`2π·L⁻¹` and satisfies `L * reciprocal = 2π·I`; for a non-invertible lattice
the computation fails with the singular-lattice error. -/
theorem reciprocal_lattice_roundtrip (L : Matrix (Fin 3) (Fin 3) ℝ) :
    (IsUnit L.det →
      reciprocalOf L = .ok ((2 * Real.pi) • L⁻¹)
      ∧ L * ((2 * Real.pi) • L⁻¹) = (2 * Real.pi) • (1 : Matrix (Fin 3) (Fin 3) ℝ))
    ∧ (¬IsUnit L.det → reciprocalOf L = .error .singularLattice) := by
  constructor
  · intro h
    constructor
    · unfold reciprocalOf
      rw [if_pos h]
    · rw [Matrix.mul_smul, Matrix.mul_nonsing_inv L h]
  · intro h
    unfold reciprocalOf
    rw [if_neg h]

/-- C8 witness: the identity lattice is invertible and satisfies the
round-trip identity; the zero lattice is singular and fails. -/
theorem reciprocal_lattice_roundtrip_witness :
    (IsUnit (1 : Matrix (Fin 3) (Fin 3) ℝ).det
     ∧ reciprocalOf (1 : Matrix (Fin 3) (Fin 3) ℝ)
         = .ok ((2 * Real.pi) • (1 : Matrix (Fin 3) (Fin 3) ℝ)⁻¹)
     ∧ (1 : Matrix (Fin 3) (Fin 3) ℝ) * ((2 * Real.pi) • (1 : Matrix (Fin 3) (Fin 3) ℝ)⁻¹)
         = (2 * Real.pi) • (1 : Matrix (Fin 3) (Fin 3) ℝ))
    ∧ (¬IsUnit (0 : Matrix (Fin 3) (Fin 3) ℝ).det
       ∧ reciprocalOf (0 : Matrix (Fin 3) (Fin 3) ℝ) = .error .singularLattice) := by
  have h1 : IsUnit (1 : Matrix (Fin 3) (Fin 3) ℝ).det := by simp
  have h0 : ¬IsUnit (0 : Matrix (Fin 3) (Fin 3) ℝ).det := by simp
  obtain ⟨ha, hb⟩ := (reciprocal_lattice_roundtrip 1).1 h1
  exact ⟨⟨h1, ha, hb⟩, h0, (reciprocal_lattice_roundtrip 0).2 h0⟩

/-! ## Claim C10: `UniverseHandler.__init__` and the `normal_order` attribute -/

/-- Python `dict` insertion: a repeated key keeps its (first) position and
takes the last value. -/
def dictInsert (d : List (Nat × String)) (k : Nat) (v : String) : List (Nat × String) :=
  if d.any (fun p => p.1 = k) then d.map (fun p => if p.1 = k then (k, v) else p)
  else d ++ [(k, v)]

/-- Python `dict(zip(keys, values))` as an insertion-ordered association list. -/
def dictZip (ks : List Nat) (vs : List String) : List (Nat × String) :=
  (ks.zip vs).foldl (fun d p => dictInsert d p.1 p.2) []

/-- Python `defaultdict(list)` append: `d[k].append(v)`. -/
def multidictAppend (d : List (String × List Nat)) (k : String) (v : Nat) :
    List (String × List Nat) :=
  if d.any (fun p => p.1 = k) then
    d.map (fun p => if p.1 = k then (p.1, p.2 ++ [v]) else p)
  else d ++ [(k, [v])]

/-- Python `list.sort()`: sorts the list in place and the call expression
evaluates to `None`.  Modelled as the pair of the sorted list (compared on
the first components, which are distinct dictionary keys here) and the
returned value, which is always `none`. -/
def pyListSort (l : List (String × List Nat)) :
    List (String × List Nat) × Option (List (String × List Nat)) :=
  (l.mergeSort (fun a b => a.1 < b.1 || a.1 == b.1), none)

/-- The attributes assigned by `UniverseHandler.__init__` and mutated by its
properties.  The trajectory-derived arrays (`pbc`, `coordinates`, `ipbc`,
`reciprocal`) are covered by `dim2lattice` and `reciprocalOf` above and are
not repeated here; the hidden cache labels `__n_atoms`, `__n_residues`,
`__resids`, `__pbc_completed` are the `Option`/`Bool` fields. -/
structure UniverseHandlerState where
  mol_names : List String
  mol_idxs_by_name : List (String × List Nat)
  normal_order : Option (List (String × List Nat))
  n_atoms_cache : Option Nat
  n_residues_cache : Option Nat
  resids_cache : Option (List Nat)
  pbc_completed : Bool

/-- Embedding of `UniverseHandler.__init__`: builds `mol_idxs_by_name`
from `dict(zip(self.atoms.molnums, self.atoms.moltypes))` filtered by
`mol_names`, then materialises its `items()` (the source's `mol_idxs_names`
list — the comprehension variables `idx, mol_name` are misnamed in the
source, the pairs are `(name, index list)`), and assigns
`self.normal_order = mol_idxs_names.sort()`, i.e. the `None` returned by the
in-place sort, not the sorted list. -/
def UniverseHandler.init (mol_names : List String) (molnums : List Nat)
    (moltypes : List String) : UniverseHandlerState :=
  let by_name := (dictZip molnums moltypes).foldl
    (fun d p => if p.2 ∈ mol_names then multidictAppend d p.2 p.1 else d) []
  let mol_idxs_names := by_name
  let sortResult := pyListSort mol_idxs_names
  ⟨mol_names, by_name, sortResult.2, none, none, none, false⟩

/-- The `n_atoms` property: caches `len(self.molecules)` on first access. -/
def UniverseHandler.n_atoms (s : UniverseHandlerState) (molecules_len : Nat) :
    UniverseHandlerState × Nat :=
  match s.n_atoms_cache with
  | some n => (s, n)
  | none => ({ s with n_atoms_cache := some molecules_len }, molecules_len)

/-- The `resids` property: caches `self.molecules.resids` on first access. -/
def UniverseHandler.resids (s : UniverseHandlerState) (molecules_resids : List Nat) :
    UniverseHandlerState × List Nat :=
  match s.resids_cache with
  | some r => (s, r)
  | none => ({ s with resids_cache := some molecules_resids }, molecules_resids)

/-- The `n_residues` property: caches `len(self.molecules.residues)` on first
access. -/
def UniverseHandler.n_residues (s : UniverseHandlerState) (residues_len : Nat) :
    UniverseHandlerState × Nat :=
  match s.n_residues_cache with
  | some n => (s, n)
  | none => ({ s with n_residues_cache := some residues_len }, residues_len)

/-- The `res_iter` method: yields the residues, touching no attribute. -/
def UniverseHandler.res_iter (s : UniverseHandlerState) (residues : List Nat) :
    UniverseHandlerState × List Nat :=
  (s, residues)

/-- C10: for every constructed handler, whatever the molecule names and
trajectory metadata, `normal_order` is `None` — the return value of the
in-place `list.sort()`, not the sorted list of pairs — and none of the
handler's operations ever assigns it a different value. -/
theorem normal_order_always_none (mol_names : List String) (molnums : List Nat)
    (moltypes : List String) (s : UniverseHandlerState) (a b : Nat) (r q : List Nat) :
    (UniverseHandler.init mol_names molnums moltypes).normal_order = none
    ∧ (UniverseHandler.n_atoms s a).1.normal_order = s.normal_order
    ∧ (UniverseHandler.resids s r).1.normal_order = s.normal_order
    ∧ (UniverseHandler.n_residues s b).1.normal_order = s.normal_order
    ∧ (UniverseHandler.res_iter s q).1.normal_order = s.normal_order := by
  refine ⟨rfl, ?_, ?_, ?_, rfl⟩
  · cases hx : s.n_atoms_cache <;> simp [UniverseHandler.n_atoms, hx]
  · cases hx : s.resids_cache <;> simp [UniverseHandler.resids, hx]
  · cases hx : s.n_residues_cache <;> simp [UniverseHandler.n_residues, hx]
